import Mathlib

/-!
Verification of the image-processing backend (`src/app.py`).

The development shallowly embeds the code of `app.py`: images are explicit
RGBA bitmaps, Base64 strings are lists of ASCII codes, and each Flask handler
becomes a total function from a form-data record to a JSON-like response
record.  External library calls (CPython's `base64`, Pillow's PNG codec,
`resize`, `alpha_composite`, and the `rembg` model) are modelled by
executable Lean functions that follow the libraries' documented integer
semantics; each model carries a doc comment saying what it stands for.
-/

set_option maxRecDepth 4000

namespace BackApp

/-- One 8-bit-per-channel RGBA pixel (channel values are naturals; the
well-formedness predicate below bounds them by 256). -/
structure RGBA where
  r : Nat
  g : Nat
  b : Nat
  a : Nat
deriving DecidableEq, Repr

/-- An in-memory RGBA bitmap: the model of a PIL `Image` in mode RGBA.
`pixels` is stored row-major. -/
structure Image where
  width : Nat
  height : Nat
  pixels : List RGBA
deriving DecidableEq, Repr

/-- Channel values of a pixel fit in a byte. -/
def RGBA.wf (p : RGBA) : Prop :=
  p.r < 256 ∧ p.g < 256 ∧ p.b < 256 ∧ p.a < 256

instance : DecidablePred RGBA.wf := fun p => by
  unfold RGBA.wf; infer_instance

/-- Well-formedness of an in-memory image, as guaranteed by PIL for every
image it hands out: positive dimensions that fit in the PNG 32-bit size
fields, a pixel buffer of exactly `width * height` entries, byte-sized
channels. -/
def Image.wf (img : Image) : Prop :=
  0 < img.width ∧ 0 < img.height ∧
  img.width < 2 ^ 32 ∧ img.height < 2 ^ 32 ∧
  img.pixels.length = img.width * img.height ∧
  ∀ p ∈ img.pixels, p.wf

instance : DecidablePred Image.wf := fun img => by
  unfold Image.wf; infer_instance

/-! ### Base64 (model of CPython `base64.b64decode` / `b64encode`)

Strings are lists of ASCII codes.  `b64decode` is called by `decode_image`
with `validate=False`, so the model follows CPython's lenient
`binascii.a2b_base64`: characters outside the alphabet are skipped, a
completing padding run ends the parse, and a dangling quad is an error. -/

/-- Value of an ASCII code in the standard Base64 alphabet `A-Z a-z 0-9 + /`. -/
def b64val (c : Nat) : Option Nat :=
  if 65 ≤ c ∧ c ≤ 90 then some (c - 65)
  else if 97 ≤ c ∧ c ≤ 122 then some (c - 97 + 26)
  else if 48 ≤ c ∧ c ≤ 57 then some (c - 48 + 52)
  else if c = 43 then some 62
  else if c = 47 then some 63
  else none

/-- ASCII code of the Base64 character for a 6-bit value. -/
def b64chr (v : Nat) : Nat :=
  if v < 26 then 65 + v
  else if v < 52 then 97 + (v - 26)
  else if v < 62 then 48 + (v - 52)
  else if v = 62 then 43
  else 47

/-- Model of CPython's lenient `binascii.a2b_base64` loop.  State:
`quadPos` (position inside the current 4-character group), `leftchar`
(bits left over from the previous character), `pads` (consecutive padding
characters seen), `acc` (decoded bytes, reversed).  `61` is ASCII `'='`. -/
def a2b : List Nat → Nat → Nat → Nat → List Nat → Option (List Nat)
  | [], quadPos, _, _, acc => if quadPos = 0 then some acc.reverse else none
  | c :: rest, quadPos, leftchar, pads, acc =>
    if c = 61 then
      if 2 ≤ quadPos ∧ 4 ≤ quadPos + (pads + 1) then some acc.reverse
      else a2b rest quadPos leftchar (pads + 1) acc
    else
      match b64val c with
      | none => a2b rest quadPos leftchar pads acc
      | some v =>
        match quadPos with
        | 0 => a2b rest 1 v 0 acc
        | 1 => a2b rest 2 (v % 16) 0 ((leftchar * 4 + v / 16) :: acc)
        | 2 => a2b rest 3 (v % 4) 0 ((leftchar * 16 + v / 4) :: acc)
        | _ => a2b rest 0 0 0 ((leftchar * 64 + v) :: acc)

/-- Model of `base64.b64decode(s)` (lenient mode, as called by
`decode_image`): run the `a2b` loop from the initial state. -/
def b64decode (s : List Nat) : Option (List Nat) :=
  a2b s 0 0 0 []

/-- Model of `base64.b64encode`: standard Base64 with `'='` padding. -/
def b2a : List Nat → List Nat
  | [] => []
  | [b1] => [b64chr (b1 / 4), b64chr (b1 % 4 * 16), 61, 61]
  | [b1, b2] => [b64chr (b1 / 4), b64chr (b1 % 4 * 16 + b2 / 16),
                 b64chr (b2 % 16 * 4), 61]
  | b1 :: b2 :: b3 :: rest =>
      b64chr (b1 / 4) :: b64chr (b1 % 4 * 16 + b2 / 16) ::
      b64chr (b2 % 16 * 4 + b3 / 64) :: b64chr (b3 % 64) :: b2a rest

/-! ### PNG serialization (model of Pillow's lossless PNG codec)

`app.py` moves images through `Image.open` (any format, then
`.convert("RGBA")`) and `image.save(..., format="PNG")`.  The model keeps
what decides the claims: the byte stream starts with the fixed 8-byte PNG
signature, records the two 32-bit big-endian dimensions, and carries the
RGBA samples losslessly; a stream that does not start with the signature,
has a zero dimension (PNG requires width, height ≥ 1), or has the wrong
sample count does not parse.  Compression is not modelled: it is inverted
exactly by the decoder and affects no claim. -/

/-- The 8-byte PNG file signature. -/
def pngSig : List Nat := [137, 80, 78, 71, 13, 10, 26, 10]

/-- Big-endian 32-bit encoding of a dimension. -/
def be4 (n : Nat) : List Nat :=
  [n / 16777216 % 256, n / 65536 % 256, n / 256 % 256, n % 256]

/-- RGBA samples of a pixel row, 4 bytes per pixel. -/
def pixBytes : List RGBA → List Nat
  | [] => []
  | p :: ps => p.r :: p.g :: p.b :: p.a :: pixBytes ps

/-- Model of `image.save(buffered, format="PNG")`: the serialized byte
stream of an in-memory RGBA image. -/
def pngBytes (img : Image) : List Nat :=
  pngSig ++ be4 img.width ++ be4 img.height ++ pixBytes img.pixels

/-- Parse 4-byte RGBA groups; anything that is not byte-sized groups of
four fails. -/
def parsePix : List Nat → Option (List RGBA)
  | [] => some []
  | r :: g :: b :: a :: rest =>
    if r < 256 ∧ g < 256 ∧ b < 256 ∧ a < 256 then
      (parsePix rest).map (⟨r, g, b, a⟩ :: ·)
    else none
  | _ => none

/-- Model of `Image.open(io.BytesIO(bytes)).convert("RGBA")`: parse the
modelled PNG stream back into an RGBA image, failing on anything that is
not a well-formed stream. -/
def pilOpen (bytes : List Nat) : Option Image :=
  match bytes with
  | 137 :: 80 :: 78 :: 71 :: 13 :: 10 :: 26 :: 10 ::
      w0 :: w1 :: w2 :: w3 :: h0 :: h1 :: h2 :: h3 :: rest =>
    if w0 < 256 ∧ w1 < 256 ∧ w2 < 256 ∧ w3 < 256 ∧
       h0 < 256 ∧ h1 < 256 ∧ h2 < 256 ∧ h3 < 256 then
      let w := w0 * 16777216 + w1 * 65536 + w2 * 256 + w3
      let h := h0 * 16777216 + h1 * 65536 + h2 * 256 + h3
      if 0 < w ∧ 0 < h ∧ rest.length = 4 * (w * h) then
        (parsePix rest).map (fun ps => ⟨w, h, ps⟩)
      else none
    else none
  | _ => none

/-! ### `decode_image` / `encode_image` (`app.py` lines 11-28) -/

/-- ASCII codes of the data-URI marker `"data:image/png;base64,"` that
`encode_image` prepends to its output (22 characters). -/
def uriMarker : List Nat :=
  [100, 97, 116, 97, 58, 105, 109, 97, 103, 101, 47, 112, 110, 103, 59,
   98, 97, 115, 101, 54, 52, 44]

/-- Embedding of `decode_image` (`app.py` 11-18): `base64.b64decode` the string, open
the bytes as an image and convert to RGBA; any failure is logged and
surfaced as `None`. -/
def decode_image (base64_string : List Nat) : Option Image :=
  match b64decode base64_string with
  | none => none
  | some image_bytes => pilOpen image_bytes

/-- Embedding of `encode_image` (`app.py` 20-28): serialize to PNG, Base64-encode, and
prepend the fixed `"data:image/png;base64,"` marker.  The `except` branch
returning `None` is kept in the `Option` type; saving an in-memory RGBA
image to an in-memory PNG buffer does not fail, so the model always
returns `some`. -/
def encode_image (image : Image) : Option (List Nat) :=
  some (uriMarker ++ b2a (pngBytes image))

/-! ### Python `int()` parsing (model of CPython `int(str)` / `int(str, 16)`)

Handlers receive `width`, `height` and `color` as strings.  CPython's
`int` accepts surrounding ASCII whitespace, an optional sign, and digits
with single underscores between them; base 16 additionally accepts an
optional `0x`/`0X` marker. -/

/-- ASCII whitespace stripped by `int()`. -/
def isPyWs (c : Nat) : Bool :=
  c = 32 ∨ c = 9 ∨ c = 10 ∨ c = 11 ∨ c = 12 ∨ c = 13

/-- Strip leading and trailing whitespace. -/
def stripWs (s : List Nat) : List Nat :=
  ((s.dropWhile isPyWs).reverse.dropWhile isPyWs).reverse

/-- Decimal digit value of an ASCII code. -/
def digVal (c : Nat) : Option Nat :=
  if 48 ≤ c ∧ c ≤ 57 then some (c - 48) else none

/-- Hexadecimal digit value of an ASCII code. -/
def hexVal (c : Nat) : Option Nat :=
  if 48 ≤ c ∧ c ≤ 57 then some (c - 48)
  else if 97 ≤ c ∧ c ≤ 102 then some (c - 97 + 10)
  else if 65 ≤ c ∧ c ≤ 70 then some (c - 65 + 10)
  else none

/-- Digit run after the first digit: digits in the given base, where a
single underscore (`95`) may sit between two digits. -/
def digitRun (val : Nat → Option Nat) (base : Nat) : List Nat → Nat → Option Nat
  | [], acc => some acc
  | c :: rest, acc =>
    if c = 95 then
      match rest with
      | [] => none
      | d :: rest2 =>
        match val d with
        | some v => digitRun val base rest2 (acc * base + v)
        | none => none
    else
      match val c with
      | some v => digitRun val base rest (acc * base + v)
      | none => none

/-- Sign handling shared by the two bases: `45` is `'-'`, `43` is `'+'`. -/
def splitSign : List Nat → Bool × List Nat
  | 45 :: rest => (true, rest)
  | 43 :: rest => (false, rest)
  | s => (false, s)

/-- Model of CPython `int(s)` (base 10) on a string of ASCII codes. -/
def pyInt (s : List Nat) : Option Int :=
  let (neg, t) := splitSign (stripWs s)
  match t with
  | [] => none
  | d :: ds =>
    match digVal d with
    | some v =>
      (digitRun digVal 10 ds v).map fun n => if neg then -(n : Int) else (n : Int)
    | none => none

/-- Magnitude part of `int(s, 16)`: an optional `0x`/`0X` marker (which may
be followed by one underscore), then hex digits. -/
def hexMagnitude : List Nat → Option Nat
  | 48 :: x :: rest =>
    if x = 120 ∨ x = 88 then
      match rest with
      | 95 :: d :: ds =>
        match hexVal d with
        | some v => digitRun hexVal 16 ds v
        | none => none
      | d :: ds =>
        match hexVal d with
        | some v => digitRun hexVal 16 ds v
        | none => none
      | [] => none
    else
      -- leading `0` that is not a base marker: an ordinary hex digit
      digitRun hexVal 16 (x :: rest) 0
  | d :: ds =>
    match hexVal d with
    | some v => digitRun hexVal 16 ds v
    | none => none
  | [] => none

/-- Model of CPython `int(s, 16)` on a string of ASCII codes. -/
def pyIntHex (s : List Nat) : Option Int :=
  let (neg, t) := splitSign (stripWs s)
  (hexMagnitude t).map fun n => if neg then -(n : Int) else (n : Int)

/-! ### IEEE-754 double arithmetic (model of CPython float semantics)

`resize_image` computes `aspect_ratio = oh / ow` (Python true division of
ints, an IEEE double) and `int(width * aspect_ratio)` (double
multiplication, then truncation toward zero).  A positive double is
represented as a pair `(m, e)`: significand `m` (53 bits) and binary
exponent `e`, with value `m * 2 ^ (e - 52)`.  Rounding is
round-to-nearest, ties to even, which is exactly CPython's behaviour on
these operations for operands in the ranges PIL admits (dimensions below
`2 ^ 32`, requested sizes below `2 ^ 31`: no overflow, no subnormals). -/

/-- Structural (fuel-driven) binary logarithm: `log2fuel f n = ⌊log₂ n⌋`
whenever `n ≤ f` and `0 < n`. -/
def log2fuel : Nat → Nat → Nat
  | 0, _ => 0
  | fuel + 1, n => if n ≤ 1 then 0 else log2fuel fuel (n / 2) + 1

/-- Floor base-2 logarithm of a positive `n` (kernel-reducible). -/
def natLog2 (n : Nat) : Nat :=
  log2fuel n n

/-- Floor base-2 logarithm of `a / b` for positive naturals `a`, `b`. -/
def ratLog2 (a b : Nat) : Int :=
  if b ≤ a then (natLog2 (a / b) : Int)
  else
    let j := natLog2 (b / a)
    if b = a * 2 ^ j then -(j : Int) else -(j : Int) - 1

/-- Rounded division: `a / b` to the nearest natural, ties to even. -/
def rdiv (a b : Nat) : Nat :=
  let q := a / b
  let r := a % b
  if 2 * r < b then q
  else if b < 2 * r then q + 1
  else if q % 2 = 0 then q else q + 1

/-- The IEEE double nearest to the rational `a / b` (correctly rounded
division, the value of Python `a / b` on nonnegative ints). -/
def flRat (a b : Nat) : Nat × Int :=
  if a = 0 ∨ b = 0 then (0, 0)
  else
    let e := ratLog2 a b
    let m :=
      if e ≤ 52 then rdiv (a * 2 ^ (52 - e).toNat) b
      else rdiv a (b * 2 ^ (e - 52).toNat)
    (m, e)

/-- Correctly rounded product of an exact natural `w` with a double
`(m, e)` — the value of Python `w * aspect_ratio` for `w < 2 ^ 53`. -/
def flMul (w : Nat) (d : Nat × Int) : Nat × Int :=
  if 52 ≤ d.2 then flRat (w * d.1 * 2 ^ (d.2 - 52).toNat) 1
  else flRat (w * d.1) (2 ^ (52 - d.2).toNat)

/-- Truncation toward zero of a nonnegative double: Python `int(x)`. -/
def flTrunc (d : Nat × Int) : Nat :=
  if 52 ≤ d.2 then d.1 * 2 ^ (d.2 - 52).toNat else d.1 / 2 ^ (52 - d.2).toNat

/-- The proportional dimension `int(w * (oh / ow))` exactly as the Python
float pipeline computes it. -/
def pyScaled (w ow oh : Nat) : Nat :=
  flTrunc (flMul w (flRat oh ow))

/-! ### Pillow geometry and compositing models -/

/-- Model of `Image.resize((w, h), Image.Resampling.LANCZOS)`: the output
has exactly the requested dimensions.  The interpolated sample values are
modelled by nearest-source sampling; no claim concerns the interpolated
intensities, only the dimensions of the result.  Resource exhaustion on
absurd sizes is not modelled. -/
def resample (img : Image) (w h : Nat) : Image :=
  ⟨w, h,
   (List.range (w * h)).map fun i =>
     img.pixels.getD ((i / w * img.height / h) * img.width +
                      (i % w) * img.width / w) ⟨0, 0, 0, 0⟩⟩

/-- Solid canvas: `Image.new("RGBA", (w, h), c)`. -/
def solidImage (w h : Nat) (c : RGBA) : Image :=
  ⟨w, h, List.replicate (w * h) c⟩

/-- Pillow's fixed-point division-by-255 idiom `SHIFTFORDIV255`. -/
def shiftDiv255 (v : Nat) : Nat :=
  (v / 256 + v) / 256

/-- Model of one pixel of Pillow's `Image.alpha_composite(dst, src)`
(`AlphaComposite.c`, `PRECISION_BITS = 7`): source over destination with
8-bit fixed-point coefficients. -/
def compositePix (dst src : RGBA) : RGBA :=
  let blend := dst.a * (255 - src.a)
  let outa255 := src.a * 255 + blend
  if outa255 = 0 then ⟨0, 0, 0, 0⟩
  else
    let coef1 := src.a * 255 * 255 * 128 / outa255
    let coef2 := 255 * 128 - coef1
    ⟨shiftDiv255 (src.r * coef1 + dst.r * coef2 + 16384) / 128,
     shiftDiv255 (src.g * coef1 + dst.g * coef2 + 16384) / 128,
     shiftDiv255 (src.b * coef1 + dst.b * coef2 + 16384) / 128,
     shiftDiv255 (outa255 + 128)⟩

/-- Model of `Image.alpha_composite(dst, src)` on equal-sized images. -/
def alphaComposite (dst src : Image) : Image :=
  ⟨dst.width, dst.height, List.zipWith compositePix dst.pixels src.pixels⟩

/-! ### HTTP layer (`app.py` handlers)

A request is the form/files data a handler reads; a response is the JSON
body (fields modelled as optional members) plus the status code. -/

/-- The form fields and uploaded file a handler can read.  `none` models
an absent field; field values are strings of ASCII codes
(`background_image` is the uploaded file's raw bytes). -/
structure FormReq where
  image_data : Option (List Nat)
  width : Option (List Nat)
  height : Option (List Nat)
  color : Option (List Nat)
  background_image : Option (List Nat)
deriving DecidableEq, Repr

/-- A JSON response: the status code and the optional members the
handlers emit (`error`, `details`, `image_data`, `message`). -/
structure Response where
  status : Nat
  error : Option String
  details : Option String
  image_data : Option (List Nat)
  message : Option String
deriving DecidableEq, Repr

/-- The response `jsonify` builds for an error with a status code. -/
def jsonError (msg : String) (code : Nat) : Response :=
  ⟨code, some msg, none, none, none⟩

/-- The response `jsonify` builds for a 500 error carrying details. -/
def jsonErrorDetails (msg d : String) : Response :=
  ⟨500, some msg, some d, none, none⟩

/-- The response `jsonify` builds for a success payload and message. -/
def jsonOk (d : List Nat) (msg : String) : Response :=
  ⟨200, none, none, some d, some msg⟩

/-- The shared tail of every success path: encode the produced image and
answer 200, or answer the `encode_image is None` 500 (which carries no
`details` member). -/
def respondPng (img : Image) (okMsg failMsg : String) : Response :=
  match encode_image img with
  | none => jsonError failMsg 500
  | some d => jsonOk d okMsg

/-- Python truthiness of an optional string: `False` for an absent field
and for the empty string. -/
def truthy : Option (List Nat) → Bool
  | none => false
  | some [] => false
  | some (_ :: _) => true

/-- Dimension-field handling of `resize_image` (`app.py` 130-144): an
absent or empty (falsy) field stays `None`; otherwise the field must
parse as an `int` (else the "Invalid … parameter" 400) and be positive
(else the "… must be a positive integer" 400). -/
def checkDim (field : Option (List Nat)) (posMsg invMsg : String) :
    Except Response (Option Int) :=
  match field with
  | none => .ok none
  | some [] => .ok none
  | some (c :: cs) =>
    match pyInt (c :: cs) with
    | none => .error (jsonError invMsg 400)
    | some w =>
      if w ≤ 0 then .error (jsonError posMsg 400)
      else .ok (some w)

/-- The `/api/resize-image` handler (`app.py` 112-184). -/
def resize_image (req : FormReq) : Response :=
  match req.image_data with
  | none => jsonError "No image_data provided" 400
  | some image_data_b64 =>
    match decode_image image_data_b64 with
    | none => jsonError "Invalid current image data" 400
    | some current_image =>
      match checkDim req.width "Width must be a positive integer"
          "Invalid width parameter" with
      | .error resp => resp
      | .ok width =>
        match checkDim req.height "Height must be a positive integer"
            "Invalid height parameter" with
        | .error resp => resp
        | .ok height =>
          match width, height with
          | none, none =>
            respondPng current_image
              "No dimensions provided, image returned as is."
              "Failed to encode image"
          | some w, some h =>
            respondPng (resample current_image w.toNat h.toNat)
              "Image resized successfully!"
              "Failed to encode processed image"
          | some w, none =>
            let new_height :=
              pyScaled w.toNat current_image.width current_image.height
            respondPng (resample current_image w.toNat new_height)
              "Image resized successfully!"
              "Failed to encode processed image"
          | none, some h =>
            let new_width :=
              pyScaled h.toNat current_image.height current_image.width
            respondPng (resample current_image new_width h.toNat)
              "Image resized successfully!"
              "Failed to encode processed image"

/-- The body of `edit_background`'s `try` block (`app.py` 76-107): build
the background canvas from the uploaded file or the hex colour and
composite the foreground over it.  The uploaded `background_image` is
opened with `Image.open`; a file Pillow cannot parse raises inside the
`try`, surfacing as the `"Failed to edit background"` 500 with the
exception text in `details`.  Hex parsing of a 2-character slice follows
`int(s, 16)`; PIL stores colour ints as bytes (`% 256`). -/
def editApply (color bgfile : Option (List Nat)) (current_image : Image) :
    Response :=
  match bgfile with
  | some fileBytes =>
    match pilOpen fileBytes with
    | none =>
      jsonErrorDetails "Failed to edit background"
        "cannot identify image file"
    | some bg_image =>
      let bg := resample bg_image current_image.width current_image.height
      respondPng (alphaComposite bg current_image)
        "Background edited successfully!"
        "Failed to encode processed image"
  | none =>
    match color with
    | some (c :: cs) =>
      let hex_color := (c :: cs).dropWhile (· = 35)
      match pyIntHex ((hex_color.drop 0).take 2),
          pyIntHex ((hex_color.drop 2).take 2),
          pyIntHex ((hex_color.drop 4).take 2) with
      | some r, some g, some b =>
        let rgb_color : RGBA :=
          ⟨(r % 256).toNat, (g % 256).toNat, (b % 256).toNat, 255⟩
        let new_background :=
          solidImage current_image.width current_image.height rgb_color
        respondPng (alphaComposite new_background current_image)
          "Background edited successfully!"
          "Failed to encode processed image"
      | _, _, _ => jsonError "Invalid color hex code" 400
    | _ =>
      -- unreachable behind the handler's guard: the blank transparent
      -- canvas `Image.new("RGBA", size)` is composited as-is
      respondPng
        (alphaComposite
          (solidImage current_image.width current_image.height
            ⟨0, 0, 0, 0⟩) current_image)
        "Background edited successfully!"
        "Failed to encode processed image"

/-- The `/api/edit-background` handler (`app.py` 58-110): decode, check that
a colour or a background file was supplied (Python truthiness: an empty
colour string counts as absent), then run the `try`-block body. -/
def edit_background (req : FormReq) : Response :=
  match req.image_data with
  | none => jsonError "No image_data provided" 400
  | some image_data_b64 =>
    match decode_image image_data_b64 with
    | none => jsonError "Invalid current image data" 400
    | some current_image =>
      if truthy req.color = false ∧ req.background_image = none then
        jsonError "Either 'color' or 'background_image' must be provided" 400
      else
        editApply req.color req.background_image current_image

/-- The `/api/remove-background` handler (`app.py` 30-56), parameterized by
the external `rembg.remove` model: an arbitrary inference function that
either returns an image or raises with a message. -/
def remove_background (removeFn : Image → Except String Image)
    (req : FormReq) : Response :=
  match req.image_data with
  | none => jsonError "No image_data provided" 400
  | some image_data_b64 =>
    match decode_image image_data_b64 with
    | none => jsonError "Invalid image data" 400
    | some input_image =>
      match removeFn input_image with
      | .error e => jsonErrorDetails "Failed to remove background" e
      | .ok output_image =>
        respondPng output_image
          "Background removed successfully!"
          "Failed to encode processed image"

/-- The image carried by a response: decode the payload after stripping
the 22-character `"data:image/png;base64,"` marker (as the service's
client does before re-submitting). -/
def respImage (r : Response) : Option Image :=
  Option.bind r.image_data fun d => decode_image (d.drop 22)

/-! ### Concrete fixtures used by witnesses and counterexamples -/

/-- A 1×1 fully opaque image. -/
def imgA : Image := ⟨1, 1, [⟨10, 20, 30, 255⟩]⟩

/-- A 1×1 fully transparent image. -/
def imgT : Image := ⟨1, 1, [⟨10, 20, 30, 0⟩]⟩

/-- A 1×1 green image used as an uploaded background. -/
def imgB : Image := ⟨1, 1, [⟨0, 200, 0, 255⟩]⟩

/-- An 11×3 image: the source size on which float truncation diverges
from exact integer truncation. -/
def img11 : Image := ⟨11, 3, List.replicate 33 ⟨10, 20, 30, 255⟩⟩

/-- A 400×300 image: the source size named by the spec's resize example. -/
def img400 : Image := ⟨400, 300, List.replicate 120000 ⟨5, 6, 7, 255⟩⟩

/-- Valid Base64 image payload for `imgA` (no data-URI marker, as a
client submits it). -/
def strA : List Nat := b2a (pngBytes imgA)

/-! ### Requests used by witnesses and counterexamples -/

/-- Resize request: `img400` with `width=200` only. -/
def req200 : FormReq :=
  ⟨some (b2a (pngBytes img400)), some [50, 48, 48], none, none, none⟩

/-- Resize request: `img11` with `width=55` only. -/
def req55 : FormReq :=
  ⟨some (b2a (pngBytes img11)), some [53, 53], none, none, none⟩

/-- Resize request with the empty-string width field. -/
def reqEmptyW : FormReq := ⟨some strA, some [], none, none, none⟩

/-- Resize request with `width="0"`. -/
def reqZeroW : FormReq := ⟨some strA, some [48], none, none, none⟩

/-- Resize request with no dimension fields. -/
def reqNoDims : FormReq := ⟨some strA, none, none, none, none⟩

/-- Resize request with `width="3"`, `height="2"`. -/
def req32 : FormReq := ⟨some strA, some [51], some [50], none, none⟩

/-- A string that decodes as Base64 (to the empty byte string) but is not
a parseable image. -/
def sBad : List Nat := [33]

/-- A request whose payload is not a decodable image. -/
def reqBadImg : FormReq := ⟨some sBad, none, none, none, none⟩

/-- A request with no `image_data` field at all. -/
def reqMissing : FormReq := ⟨none, none, none, none, none⟩

/-- A background-removal model that succeeds and returns its input. -/
def rfOk : Image → Except String Image := fun i => .ok i

/-- A background-removal model that raises. -/
def rfErr : Image → Except String Image := fun _ => .error "inference failed"

/-- ASCII codes of the colour string `"#FF0000"`. -/
def colorRed : List Nat := [35, 70, 70, 48, 48, 48, 48]

/-- ASCII codes of `"#FF0000AA"`: eight hex digits, not six. -/
def colorLong : List Nat := [35, 70, 70, 48, 48, 48, 48, 65, 65]

/-- ASCII codes of `"#ZZZZZZ"`. -/
def colorZ : List Nat := [35, 90, 90, 90, 90, 90, 90]

/-- Base64 payload of the transparent 1×1 image. -/
def strT : List Nat := b2a (pngBytes imgT)

/-- Edit request: opaque foreground, colour `#FF0000`. -/
def reqEditA : FormReq := ⟨some strA, none, none, some colorRed, none⟩

/-- Edit request: transparent foreground, colour `#FF0000`. -/
def reqEditT : FormReq := ⟨some strT, none, none, some colorRed, none⟩

/-- Edit request with the 8-digit colour string. -/
def reqEditLong : FormReq := ⟨some strA, none, none, some colorLong, none⟩

/-- Edit request with the unparseable colour string. -/
def reqEditZ : FormReq := ⟨some strA, none, none, some colorZ, none⟩

/-- Edit request with the colour `"#102030"`. -/
def reqEditHex : FormReq :=
  ⟨some strA, none, none, some [35, 49, 48, 50, 48, 51, 48], none⟩

/-- Edit request carrying both an (invalid) colour and an uploaded
background file. -/
def reqEditBg : FormReq :=
  ⟨some strA, none, none, some [90], some (pngBytes imgB)⟩

/-- The response shape the spec promises for errors: an `error` member
always, plus a `details` member on the 500 tier. -/
def goodResp (r : Response) : Prop :=
  (r.status ≠ 200 → r.error.isSome = true) ∧
  (r.status = 500 → r.details.isSome = true)

/-- Spec-side predicate (from the spec's words, for stating claim C8): a
colour string is a valid 6-hex-digit colour when, after stripping leading
`#` characters, exactly six hexadecimal digits remain. -/
def specSixHexColor (s : List Nat) : Bool :=
  ((s.dropWhile (· = 35)).length = 6) &&
    (s.dropWhile (· = 35)).all fun c => (hexVal c).isSome

/-! ### Base64 round-trip -/

/-- Encoded characters are never the padding character `'='`. -/
theorem b64chr_ne_pad : ∀ v < 64, b64chr v ≠ 61 := by decide

/-- Decoding inverts the character table on 6-bit values. -/
theorem b64val_b64chr : ∀ v < 64, b64val (b64chr v) = some v := by decide

/-- One decoder step on a data character, initial quad position. -/
theorem a2b_data0 (v : Nat) (hv : v < 64) (rest : List Nat)
    (l p : Nat) (acc : List Nat) :
    a2b (b64chr v :: rest) 0 l p acc = a2b rest 1 v 0 acc := by
  simp only [a2b, if_neg (b64chr_ne_pad v hv), b64val_b64chr v hv]

/-- One decoder step on a data character, quad position 1. -/
theorem a2b_data1 (v : Nat) (hv : v < 64) (rest : List Nat)
    (l p : Nat) (acc : List Nat) :
    a2b (b64chr v :: rest) 1 l p acc =
      a2b rest 2 (v % 16) 0 ((l * 4 + v / 16) :: acc) := by
  simp only [a2b, if_neg (b64chr_ne_pad v hv), b64val_b64chr v hv]

/-- One decoder step on a data character, quad position 2. -/
theorem a2b_data2 (v : Nat) (hv : v < 64) (rest : List Nat)
    (l p : Nat) (acc : List Nat) :
    a2b (b64chr v :: rest) 2 l p acc =
      a2b rest 3 (v % 4) 0 ((l * 16 + v / 4) :: acc) := by
  simp only [a2b, if_neg (b64chr_ne_pad v hv), b64val_b64chr v hv]

/-- One decoder step on a data character, quad position 3. -/
theorem a2b_data3 (v : Nat) (hv : v < 64) (rest : List Nat)
    (l p : Nat) (acc : List Nat) :
    a2b (b64chr v :: rest) 3 l p acc =
      a2b rest 0 0 0 ((l * 64 + v) :: acc) := by
  simp only [a2b, if_neg (b64chr_ne_pad v hv), b64val_b64chr v hv]

/-- One decoder step on the padding character. -/
theorem a2b_pad (rest : List Nat) (q l p : Nat) (acc : List Nat) :
    a2b (61 :: rest) q l p acc =
      if 2 ≤ q ∧ 4 ≤ q + (p + 1) then some acc.reverse
      else a2b rest q l (p + 1) acc := by
  simp [a2b]

/-- The lenient decoder inverts the encoder on byte-valued input, from
any accumulator state. -/
theorem a2b_b2a : ∀ bs : List Nat, (∀ b ∈ bs, b < 256) →
    ∀ acc : List Nat, a2b (b2a bs) 0 0 0 acc = some (acc.reverse ++ bs)
  | [], _, acc => by simp [b2a, a2b]
  | [b1], h, acc => by
    have hb1 : b1 < 256 := h b1 (by simp)
    simp only [b2a]
    rw [a2b_data0 _ (by omega), a2b_data1 _ (by omega)]
    have e1 : b1 / 4 * 4 + b1 % 4 * 16 / 16 = b1 := by omega
    rw [e1, a2b_pad, if_neg (by omega), a2b_pad, if_pos (by omega)]
    simp
  | [b1, b2], h, acc => by
    have hb1 : b1 < 256 := h b1 (by simp)
    have hb2 : b2 < 256 := h b2 (by simp)
    simp only [b2a]
    rw [a2b_data0 _ (by omega), a2b_data1 _ (by omega)]
    have e1 : b1 / 4 * 4 + (b1 % 4 * 16 + b2 / 16) / 16 = b1 := by omega
    have e2 : (b1 % 4 * 16 + b2 / 16) % 16 = b2 / 16 := by omega
    rw [e1, e2, a2b_data2 _ (by omega)]
    have e3 : b2 / 16 * 16 + b2 % 16 * 4 / 4 = b2 := by omega
    rw [e3, a2b_pad, if_pos (by omega)]
    simp
  | b1 :: b2 :: b3 :: rest, h, acc => by
    have hb1 : b1 < 256 := h b1 (by simp)
    have hb2 : b2 < 256 := h b2 (by simp)
    have hb3 : b3 < 256 := h b3 (by simp)
    simp only [b2a]
    rw [a2b_data0 _ (by omega), a2b_data1 _ (by omega)]
    have e1 : b1 / 4 * 4 + (b1 % 4 * 16 + b2 / 16) / 16 = b1 := by omega
    have e2 : (b1 % 4 * 16 + b2 / 16) % 16 = b2 / 16 := by omega
    rw [e1, e2, a2b_data2 _ (by omega)]
    have e3 : b2 / 16 * 16 + (b2 % 16 * 4 + b3 / 64) / 4 = b2 := by omega
    have e4 : (b2 % 16 * 4 + b3 / 64) % 4 = b3 / 64 := by omega
    rw [e3, e4, a2b_data3 _ (by omega)]
    have e5 : b3 / 64 * 64 + b3 % 64 = b3 := by omega
    rw [e5, a2b_b2a rest (fun b hb => h b (by simp [hb])) (b3 :: b2 :: b1 :: acc)]
    simp

/-- Decoding inverts encoding on byte streams. -/
theorem b64decode_b2a (bs : List Nat) (h : ∀ b ∈ bs, b < 256) :
    b64decode (b2a bs) = some bs := by
  simpa [b64decode] using a2b_b2a bs h []

/-! ### PNG round-trip -/

theorem pixBytes_length (ps : List RGBA) :
    (pixBytes ps).length = 4 * ps.length := by
  induction ps with
  | nil => rfl
  | cons p ps ih => simp [pixBytes, ih]; omega

theorem pixBytes_lt (ps : List RGBA) (h : ∀ p ∈ ps, p.wf) :
    ∀ b ∈ pixBytes ps, b < 256 := by
  induction ps with
  | nil => simp [pixBytes]
  | cons p ps ih =>
    obtain ⟨h1, h2, h3, h4⟩ := h p (by simp)
    simp only [pixBytes, List.mem_cons]
    rintro b (rfl | rfl | rfl | rfl | hb)
    · exact h1
    · exact h2
    · exact h3
    · exact h4
    · exact ih (fun q hq => h q (by simp [hq])) b hb

theorem parsePix_pixBytes (ps : List RGBA) (h : ∀ p ∈ ps, p.wf) :
    parsePix (pixBytes ps) = some ps := by
  induction ps with
  | nil => rfl
  | cons p ps ih =>
    obtain ⟨h1, h2, h3, h4⟩ := h p (by simp)
    simp only [pixBytes, parsePix, ih (fun q hq => h q (by simp [hq]))]
    rw [if_pos ⟨h1, h2, h3, h4⟩]
    rfl

theorem pngBytes_lt (img : Image) (h : img.wf) :
    ∀ b ∈ pngBytes img, b < 256 := by
  obtain ⟨-, -, -, -, -, hpx⟩ := h
  intro b hb
  simp only [pngBytes, pngSig, be4, List.append_assoc, List.mem_append,
    List.mem_cons, List.mem_singleton, List.not_mem_nil] at hb
  rcases hb with h8 | h4 | h4' | hpix
  · rcases h8 with rfl | rfl | rfl | rfl | rfl | rfl | rfl | rfl | h' <;>
      simp_all
  · rcases h4 with rfl | rfl | rfl | rfl | h'
    · exact Nat.mod_lt _ (by norm_num)
    · exact Nat.mod_lt _ (by norm_num)
    · exact Nat.mod_lt _ (by norm_num)
    · exact Nat.mod_lt _ (by norm_num)
    · cases h'
  · rcases h4' with rfl | rfl | rfl | rfl | h'
    · exact Nat.mod_lt _ (by norm_num)
    · exact Nat.mod_lt _ (by norm_num)
    · exact Nat.mod_lt _ (by norm_num)
    · exact Nat.mod_lt _ (by norm_num)
    · cases h'
  · exact pixBytes_lt _ hpx b hpix

theorem pilOpen_parts (w h : Nat) (rest : List Nat) (hw : 0 < w)
    (hh : 0 < h) (hw32 : w < 2 ^ 32) (hh32 : h < 2 ^ 32)
    (hlen : rest.length = 4 * (w * h)) :
    pilOpen (pngSig ++ be4 w ++ be4 h ++ rest) =
      (parsePix rest).map (fun ps => ⟨w, h, ps⟩) := by
  have pw : w / 16777216 % 256 * 16777216 + w / 65536 % 256 * 65536 +
      w / 256 % 256 * 256 + w % 256 = w := by omega
  have ph : h / 16777216 % 256 * 16777216 + h / 65536 % 256 * 65536 +
      h / 256 % 256 * 256 + h % 256 = h := by omega
  simp only [pngSig, be4, List.append_assoc, List.cons_append,
    List.nil_append, pilOpen]
  rw [if_pos]
  · simp only [pw, ph]
    rw [if_pos ⟨hw, hh, hlen⟩]
  · exact ⟨Nat.mod_lt _ (by norm_num), Nat.mod_lt _ (by norm_num),
      Nat.mod_lt _ (by norm_num), Nat.mod_lt _ (by norm_num),
      Nat.mod_lt _ (by norm_num), Nat.mod_lt _ (by norm_num),
      Nat.mod_lt _ (by norm_num), Nat.mod_lt _ (by norm_num)⟩

theorem pilOpen_pngBytes (img : Image) (h : img.wf) :
    pilOpen (pngBytes img) = some img := by
  obtain ⟨hw, hh, hw32, hh32, hlen, hpx⟩ := h
  rw [pngBytes, List.append_assoc, List.append_assoc,
    ← List.append_assoc, ← List.append_assoc,
    pilOpen_parts _ _ _ hw hh hw32 hh32 (by rw [pixBytes_length, hlen]),
    parsePix_pixBytes _ hpx]
  rfl

/-- Decoding the Base64 of the serialized PNG of a well-formed image
returns the image unchanged. -/
theorem decode_pngBytes (img : Image) (h : img.wf) :
    decode_image (b2a (pngBytes img)) = some img := by
  simp [decode_image, b64decode_b2a _ (pngBytes_lt img h),
    pilOpen_pngBytes img h]

/-- The image carried by a success response built from a well-formed
image is that image. -/
theorem respImage_respondPng (img : Image) (h : img.wf) (m1 m2 : String) :
    respImage (respondPng img m1 m2) = some img := by
  simp only [respondPng, encode_image, respImage, jsonOk, Option.bind]
  rw [show (22 : ℕ) = uriMarker.length from rfl, List.drop_left]
  exact decode_pngBytes img h

theorem respondPng_status (img : Image) (m1 m2 : String) :
    (respondPng img m1 m2).status = 200 := rfl

theorem respondPng_message (img : Image) (m1 m2 : String) :
    (respondPng img m1 m2).message = some m1 := rfl

/-! ### Well-formedness is preserved along the pipeline -/

theorem parsePix_length : ∀ bytes ps, parsePix bytes = some ps →
    bytes.length = 4 * ps.length
  | [], ps, h => by
    simp only [parsePix, Option.some.injEq] at h
    simp [← h]
  | r :: g :: b :: a :: rest, ps, h => by
    simp only [parsePix] at h
    split at h
    · cases hr : parsePix rest with
      | none => rw [hr] at h; cases h
      | some qs =>
        rw [hr] at h
        obtain rfl : (⟨r, g, b, a⟩ : RGBA) :: qs = ps := by
          simpa using h
        have := parsePix_length rest qs hr
        simp [this]
        omega
    · cases h
  | [r], ps, h => by cases h
  | [r, g], ps, h => by cases h
  | [r, g, b], ps, h => by cases h

theorem parsePix_wf : ∀ bytes ps, parsePix bytes = some ps →
    ∀ p ∈ ps, p.wf
  | [], ps, h => by
    simp only [parsePix, Option.some.injEq] at h
    simp [← h]
  | r :: g :: b :: a :: rest, ps, h => by
    simp only [parsePix] at h
    split at h
    · next hcond =>
      cases hr : parsePix rest with
      | none => rw [hr] at h; cases h
      | some qs =>
        rw [hr] at h
        obtain rfl : (⟨r, g, b, a⟩ : RGBA) :: qs = ps := by
          simpa using h
        intro p hp
        rcases List.mem_cons.mp hp with rfl | hp
        · simpa [RGBA.wf] using hcond
        · exact parsePix_wf rest qs hr p hp
    · cases h
  | [r], ps, h => by cases h
  | [r, g], ps, h => by cases h
  | [r, g, b], ps, h => by cases h

/-- Every image `Image.open` hands out is well-formed (PIL guarantees
byte-valued channels, positive PNG dimensions within 32 bits, and a full
pixel buffer). -/
theorem pilOpen_wf (bytes : List Nat) (img : Image)
    (h : pilOpen bytes = some img) : img.wf := by
  unfold pilOpen at h
  split at h
  · next w0 w1 w2 w3 h0 h1 h2 h3 rest =>
    split at h
    · next hbytes =>
      dsimp only at h
      split at h
      · next hdims =>
        cases hr : parsePix rest with
        | none => rw [hr] at h; cases h
        | some ps =>
          rw [hr] at h
          obtain rfl : (⟨_, _, ps⟩ : Image) = img := by simpa using h
          obtain ⟨hw, hh, hlen⟩ := hdims
          obtain ⟨b0, b1, b2, b3, c0, c1, c2, c3⟩ := hbytes
          have hlen4 := parsePix_length rest ps hr
          exact ⟨hw, hh, by dsimp only; omega, by dsimp only; omega,
            by dsimp only; omega, parsePix_wf rest ps hr⟩
      · cases h
    · cases h
  · cases h

theorem decode_image_wf (s : List Nat) (img : Image)
    (h : decode_image s = some img) : img.wf := by
  unfold decode_image at h
  split at h
  · cases h
  · exact pilOpen_wf _ _ h

/-- Elements produced by `getD` satisfy any predicate holding on the list
and on the default. -/
theorem getD_pred {α : Type} {P : α → Prop} (l : List α) (d : α) (i : Nat)
    (hl : ∀ x ∈ l, P x) (hd : P d) : P (l.getD i d) := by
  by_cases hi : i < l.length
  · rw [List.getD_eq_getElem l d hi]
    exact hl _ (List.getElem_mem hi)
  · rw [List.getD_eq_default l d (by omega)]
    exact hd

/-- The resize model preserves well-formedness for positive in-range
target dimensions. -/
theorem resample_wf (img : Image) (w h : Nat) (hi : img.wf) (hw : 0 < w)
    (hh : 0 < h) (hw32 : w < 2 ^ 32) (hh32 : h < 2 ^ 32) :
    (resample img w h).wf := by
  obtain ⟨-, -, -, -, -, hpx⟩ := hi
  refine ⟨hw, hh, hw32, hh32, by simp [resample], ?_⟩
  intro p hp
  simp only [resample, List.mem_map] at hp
  obtain ⟨i, -, rfl⟩ := hp
  exact getD_pred _ _ _ hpx (by constructor <;> norm_num)

theorem solidImage_wf (w h : Nat) (c : RGBA) (hw : 0 < w) (hh : 0 < h)
    (hw32 : w < 2 ^ 32) (hh32 : h < 2 ^ 32) (hc : c.wf) :
    (solidImage w h c).wf := by
  refine ⟨hw, hh, hw32, hh32, by simp [solidImage], ?_⟩
  intro p hp
  rw [List.eq_of_mem_replicate hp]
  exact hc

/-- Pillow's per-pixel composite keeps channels byte-valued. -/
theorem compositePix_wf (dst src : RGBA) (hd : dst.wf) (hs : src.wf) :
    (compositePix dst src).wf := by
  obtain ⟨hdr, hdg, hdb, hda⟩ := hd
  obtain ⟨hsr, hsg, hsb, hsa⟩ := hs
  unfold compositePix
  dsimp only
  split
  · exact ⟨by norm_num, by norm_num, by norm_num, by norm_num⟩
  · next hne =>
    set blend := dst.a * (255 - src.a) with hblend
    set outa255 := src.a * 255 + blend with houta
    have hblendle : blend ≤ 255 * (255 - src.a) :=
      Nat.mul_le_mul_right _ (by omega)
    have houtle : outa255 ≤ 65025 := by omega
    have hsale : src.a * 255 ≤ outa255 := by omega
    have hcoef1 : src.a * 255 * 255 * 128 / outa255 ≤ 32640 := by
      apply Nat.div_le_of_le_mul
      omega
    set coef1 := src.a * 255 * 255 * 128 / outa255 with hc1
    set coef2 := 255 * 128 - coef1 with hc2
    have bound : ∀ x y : Nat, x < 256 → y < 256 →
        shiftDiv255 (x * coef1 + y * coef2 + 16384) / 128 < 256 := by
      intro x y hx hy
      have h1 : x * coef1 ≤ 255 * coef1 := Nat.mul_le_mul_right _ (by omega)
      have h2 : y * coef2 ≤ 255 * coef2 := Nat.mul_le_mul_right _ (by omega)
      unfold shiftDiv255
      omega
    refine ⟨bound _ _ hsr hdr, bound _ _ hsg hdg, bound _ _ hsb hdb, ?_⟩
    show shiftDiv255 (outa255 + 128) < 256
    unfold shiftDiv255
    omega

/-- Predicates transport along `zipWith`. -/
theorem forall_mem_zipWith {α β γ : Type} {f : α → β → γ} {P : α → Prop}
    {Q : β → Prop} {R : γ → Prop}
    (hf : ∀ x y, P x → Q y → R (f x y)) :
    ∀ (xs : List α) (ys : List β), (∀ x ∈ xs, P x) → (∀ y ∈ ys, Q y) →
      ∀ z ∈ List.zipWith f xs ys, R z
  | [], _, _, _ => by simp
  | _ :: _, [], _, _ => by simp
  | x :: xs, y :: ys, hx, hy => by
    simp only [List.zipWith_cons_cons, List.mem_cons]
    rintro z (rfl | hz)
    · exact hf x y (hx x (by simp)) (hy y (by simp))
    · exact forall_mem_zipWith hf xs ys (fun a ha => hx a (by simp [ha]))
        (fun b hb => hy b (by simp [hb])) z hz

/-- Compositing two well-formed images of equal dimensions yields a
well-formed image. -/
theorem alphaComposite_wf (dst src : Image) (hd : dst.wf) (hs : src.wf)
    (hww : src.width = dst.width) (hhh : src.height = dst.height) :
    (alphaComposite dst src).wf := by
  obtain ⟨hw, hh, hw32, hh32, hdlen, hdpx⟩ := hd
  obtain ⟨-, -, -, -, hslen, hspx⟩ := hs
  refine ⟨hw, hh, hw32, hh32, ?_, ?_⟩
  · simp only [alphaComposite, List.length_zipWith]
    rw [hdlen, hslen, hww, hhh]
    simp
  · intro p hp
    exact forall_mem_zipWith (fun x y hx hy => compositePix_wf x y hx hy)
      dst.pixels src.pixels hdpx hspx p hp

/-! ### Exactness of compositing at the alpha extremes -/

/-- The fixed-point scale-by-`32640/128 = 255`-with-rounding pipeline is
exact on bytes. -/
theorem shiftRound_exact :
    ∀ r < 256, ((r * 32640 + 16384) / 256 + (r * 32640 + 16384)) / 256 / 128 = r := by
  decide

/-- With a fully opaque source pixel the composite equals the source. -/
theorem compositePix_full_alpha (dst src : RGBA) (hs : src.wf)
    (ha : src.a = 255) : compositePix dst src = src := by
  obtain ⟨hr, hg, hb, -⟩ := hs
  obtain ⟨r, g, b, a⟩ := src
  obtain rfl : a = 255 := ha
  unfold compositePix
  norm_num [shiftDiv255]
  exact ⟨shiftRound_exact r hr, shiftRound_exact g hg, shiftRound_exact b hb⟩

/-- With a fully transparent source pixel over a fully opaque destination
the composite equals the destination. -/
theorem compositePix_transparent (dst src : RGBA) (hd : dst.wf)
    (ha : src.a = 0) (hda : dst.a = 255) : compositePix dst src = dst := by
  obtain ⟨hr, hg, hb, -⟩ := hd
  obtain ⟨r, g, b, a⟩ := dst
  obtain rfl : a = 255 := hda
  obtain ⟨sr, sg, sb, sa⟩ := src
  obtain rfl : sa = 0 := ha
  unfold compositePix
  norm_num [shiftDiv255]
  exact ⟨shiftRound_exact r hr, shiftRound_exact g hg, shiftRound_exact b hb⟩

/-- Compositing a list of fully opaque pixels over any canvas returns the
pixels unchanged. -/
theorem zipWith_replicate_full_alpha :
    ∀ (ps : List RGBA) (n : Nat) (c : RGBA), ps.length ≤ n →
      (∀ p ∈ ps, p.wf) → (∀ p ∈ ps, p.a = 255) →
      List.zipWith compositePix (List.replicate n c) ps = ps
  | [], _, _, _, _, _ => by simp
  | p :: ps, n, c, hle, hwf, ha => by
    cases n with
    | zero => simp at hle
    | succ n =>
      simp only [List.replicate_succ, List.zipWith_cons_cons]
      rw [compositePix_full_alpha c p (hwf p (by simp)) (ha p (by simp)),
        zipWith_replicate_full_alpha ps n c (by simpa using hle)
          (fun q hq => hwf q (by simp [hq])) (fun q hq => ha q (by simp [hq]))]

/-- Compositing a list of fully transparent pixels over an opaque solid
canvas returns the canvas colour everywhere. -/
theorem zipWith_replicate_transparent :
    ∀ (ps : List RGBA) (n : Nat) (c : RGBA), ps.length ≤ n → c.wf →
      c.a = 255 → (∀ p ∈ ps, p.a = 0) →
      List.zipWith compositePix (List.replicate n c) ps =
        List.replicate ps.length c
  | [], _, _, _, _, _, _ => by simp
  | p :: ps, n, c, hle, hcwf, hca, ha => by
    cases n with
    | zero => simp at hle
    | succ n =>
      simp only [List.replicate_succ, List.zipWith_cons_cons,
        List.length_cons]
      rw [compositePix_transparent c p hcwf (ha p (by simp)) hca,
        zipWith_replicate_transparent ps n c (by simpa using hle) hcwf hca
          (fun q hq => ha q (by simp [hq]))]

/-- Image-level form: an all-opaque foreground fully occludes a solid
background of its own size. -/
theorem alphaComposite_opaque_solid (fg : Image) (c : RGBA) (hwf : fg.wf)
    (ha : ∀ p ∈ fg.pixels, p.a = 255) :
    alphaComposite (solidImage fg.width fg.height c) fg = fg := by
  obtain ⟨-, -, -, -, hlen, hpx⟩ := hwf
  obtain ⟨w, h, ps⟩ := fg
  simp only at hlen hpx ha
  simp only [alphaComposite, solidImage]
  rw [zipWith_replicate_full_alpha ps (w * h) c (by omega) hpx ha]

/-- Image-level form: an all-transparent foreground leaves exactly the
solid opaque background. -/
theorem alphaComposite_transparent_solid (fg : Image) (c : RGBA)
    (hwf : fg.wf) (hcwf : c.wf) (hca : c.a = 255)
    (ha : ∀ p ∈ fg.pixels, p.a = 0) :
    alphaComposite (solidImage fg.width fg.height c) fg =
      solidImage fg.width fg.height c := by
  obtain ⟨-, -, -, -, hlen, -⟩ := hwf
  obtain ⟨w, h, ps⟩ := fg
  simp only at hlen ha
  simp only [alphaComposite, solidImage]
  rw [zipWith_replicate_transparent ps (w * h) c (by omega) hcwf hca ha,
    hlen]

/-! ### Dimension-field parsing on the handler path -/

/-- A supplied dimension that parses positive passes `checkDim`. -/
theorem checkDim_pos (ws : List Nat) (w : Int) (p1 p2 : String)
    (hpw : pyInt ws = some w) (hpos : 0 < w) :
    checkDim (some ws) p1 p2 = .ok (some w) := by
  cases ws with
  | nil => cases hpw
  | cons c cs =>
    simp only [checkDim, hpw]
    rw [if_neg (by omega)]

/-- A supplied non-empty dimension that does not parse as a positive
integer makes `checkDim` fail with a 400 response. -/
theorem checkDim_bad (ws : List Nat) (p1 p2 : String) (hne : ws ≠ [])
    (hbad : pyInt ws = none ∨ ∃ v, pyInt ws = some v ∧ v ≤ 0) :
    ∃ msg, checkDim (some ws) p1 p2 = .error (jsonError msg 400) := by
  cases ws with
  | nil => exact absurd rfl hne
  | cons c cs =>
    rcases hbad with hnone | ⟨v, hv, hvle⟩
    · exact ⟨p2, by simp only [checkDim, hnone]⟩
    · exact ⟨p1, by simp only [checkDim, hv]; rw [if_pos hvle]⟩

/-- Whatever `checkDim` rejects, it rejects with status 400. -/
theorem checkDim_error_status (field : Option (List Nat)) (p1 p2 : String)
    (r : Response) (h : checkDim field p1 p2 = .error r) : r.status = 400 := by
  unfold checkDim at h
  split at h
  · cases h
  · cases h
  · split at h
    · injection h with h2
      subst h2
      rfl
    · split at h
      · injection h with h2
        subst h2
        rfl
      · cases h

/-! ### Fixture well-formedness -/

/-- Well-formedness of the solid replicate fixtures. -/
theorem replicate_image_wf (w h n : Nat) (c : RGBA) (hn : n = w * h)
    (hw : 0 < w) (hh : 0 < h) (hw32 : w < 2 ^ 32) (hh32 : h < 2 ^ 32)
    (hc : c.wf) : (⟨w, h, List.replicate n c⟩ : Image).wf :=
  ⟨hw, hh, hw32, hh32, by simp [hn],
   fun p hp => by rw [List.eq_of_mem_replicate hp]; exact hc⟩

theorem imgA_wf : imgA.wf := by decide

theorem imgT_wf : imgT.wf := by decide

theorem imgB_wf : imgB.wf := by decide

theorem img11_wf : img11.wf :=
  replicate_image_wf 11 3 33 _ rfl (by norm_num) (by norm_num)
    (by norm_num) (by norm_num) (by decide)

theorem img400_wf : img400.wf :=
  replicate_image_wf 400 300 120000 _ rfl (by norm_num) (by norm_num)
    (by norm_num) (by norm_num) (by decide)

/-! ### Claim C9: resize with neither dimension is a no-op -/

/-- C9.  For every `/api/resize-image` request with a valid image and
neither `width` nor `height` supplied, the handler answers 200, the
returned payload decodes back to exactly the input image (same
dimensions and pixels), and the message says no resize was performed. -/
theorem resize_noop_when_no_dims (req : FormReq) (s : List Nat)
    (img : Image) (hs : req.image_data = some s)
    (hdec : decode_image s = some img) (hwf : img.wf)
    (hw : req.width = none) (hh : req.height = none) :
    (resize_image req).status = 200 ∧
    respImage (resize_image req) = some img ∧
    (resize_image req).message =
      some "No dimensions provided, image returned as is." := by
  have hred : resize_image req =
      respondPng img "No dimensions provided, image returned as is."
        "Failed to encode image" := by
    simp only [resize_image, hs, hdec, hw, hh, checkDim]
  rw [hred]
  exact ⟨respondPng_status _ _ _, respImage_respondPng img hwf _ _,
    respondPng_message _ _ _⟩

/-- C9 witness: the concrete 1×1 request. -/
theorem resize_noop_when_no_dims_witness :
    (resize_image reqNoDims).status = 200 ∧
    respImage (resize_image reqNoDims) = some imgA ∧
    (resize_image reqNoDims).message =
      some "No dimensions provided, image returned as is." :=
  resize_noop_when_no_dims reqNoDims strA imgA rfl
    (decode_pngBytes imgA imgA_wf) imgA_wf rfl rfl

/-! ### Claim C3: resize with both dimensions is exact -/

/-- C3.  For every `/api/resize-image` request with a valid image and
both dimensions supplied as positive integers (within PIL's 32-bit
range), the handler answers 200 and the returned image has exactly the
requested dimensions, whatever the original aspect ratio. -/
theorem resize_both_dims_exact (req : FormReq) (s ws hs2 : List Nat)
    (img : Image) (wi hi : Int) (hs : req.image_data = some s)
    (hdec : decode_image s = some img) (hwf : img.wf)
    (hwidth : req.width = some ws) (hpw : pyInt ws = some wi)
    (hwpos : 0 < wi) (hw32 : wi < 2 ^ 32)
    (hheight : req.height = some hs2) (hph : pyInt hs2 = some hi)
    (hhpos : 0 < hi) (hh32 : hi < 2 ^ 32) :
    (resize_image req).status = 200 ∧
    respImage (resize_image req) = some (resample img wi.toNat hi.toNat) ∧
    (resample img wi.toNat hi.toNat).width = wi.toNat ∧
    (resample img wi.toNat hi.toNat).height = hi.toNat := by
  have hred : resize_image req =
      respondPng (resample img wi.toNat hi.toNat)
        "Image resized successfully!" "Failed to encode processed image" := by
    simp only [resize_image, hs, hdec, hwidth, hheight,
      checkDim_pos ws wi _ _ hpw hwpos, checkDim_pos hs2 hi _ _ hph hhpos]
  rw [hred]
  refine ⟨respondPng_status _ _ _, respImage_respondPng _ ?_ _ _, rfl, rfl⟩
  exact resample_wf img _ _ hwf (by omega) (by omega) (by omega) (by omega)

/-- C3 witness: resize the 1×1 image to 3×2. -/
theorem resize_both_dims_exact_witness :
    (resize_image req32).status = 200 ∧
    respImage (resize_image req32) = some (resample imgA 3 2) ∧
    (resample imgA 3 2).width = 3 ∧ (resample imgA 3 2).height = 2 :=
  resize_both_dims_exact req32 strA [51] [50] imgA 3 2 rfl
    (decode_pngBytes imgA imgA_wf) imgA_wf rfl (by decide) (by decide)
    (by decide) rfl (by decide) (by decide) (by decide)

/-! ### Claim C2 (amended): width-only resize follows the float pipeline -/

/-- C2 counterexample.  The claim predicts
`height = ⌊width * original_height / original_width⌋` by exact integer
truncation: for an 11×3 source and `width=55` that is `55*3/11 = 15`.
The handler instead computes `int(55 * (3/11))` in double precision,
which is `14`: the response image is 55×14, not 55×15. -/
theorem resize_width_only_truncation_counterexample :
    55 * 3 / 11 = 15 ∧
    Option.map Image.height (respImage (resize_image req55)) = some 14 ∧
    Option.map Image.width (respImage (resize_image req55)) = some 55 := by
  have hdec : decode_image (b2a (pngBytes img11)) = some img11 :=
    decode_pngBytes img11 img11_wf
  have hred : resize_image req55 =
      respondPng (resample img11 55 14)
        "Image resized successfully!" "Failed to encode processed image" := by
    have hp : pyInt [53, 53] = some 55 := by decide
    have hps : pyScaled 55 11 3 = 14 := by decide
    have hw11 : img11.width = 11 := rfl
    have hh11 : img11.height = 3 := rfl
    simp only [resize_image, req55, hdec, checkDim, hp, hw11, hh11]
    norm_num
    rfl
  have hresp : respImage (resize_image req55) = some (resample img11 55 14) := by
    rw [hred]
    exact respImage_respondPng _ (resample_wf img11 55 14 img11_wf
      (by norm_num) (by norm_num) (by norm_num) (by norm_num)) _ _
  exact ⟨by norm_num, by rw [hresp]; rfl, by rw [hresp]; rfl⟩

/-- C2 (amended).  For every `/api/resize-image` request with a valid
image and only `width` supplied as a positive integer (within PIL's
32-bit range), the output has exactly the requested width, and its
height is `int(width * (original_height / original_width))` computed in
IEEE double precision — which truncates toward zero but can fall one
below the exact integer truncation `width * oh / ow` — provided that
computed height is positive and in range.  In particular `width=200` on
a 400×300 source yields height 150. -/
theorem resize_width_only_float (req : FormReq) (s ws : List Nat)
    (img : Image) (wi : Int) (hs : req.image_data = some s)
    (hdec : decode_image s = some img) (hwf : img.wf)
    (hwidth : req.width = some ws) (hpw : pyInt ws = some wi)
    (hwpos : 0 < wi) (hw32 : wi < 2 ^ 32) (hheight : req.height = none)
    (hhpos : 0 < pyScaled wi.toNat img.width img.height)
    (hh32 : pyScaled wi.toNat img.width img.height < 2 ^ 32) :
    (resize_image req).status = 200 ∧
    respImage (resize_image req) =
      some (resample img wi.toNat (pyScaled wi.toNat img.width img.height)) ∧
    (resample img wi.toNat (pyScaled wi.toNat img.width img.height)).width =
      wi.toNat ∧
    (resample img wi.toNat (pyScaled wi.toNat img.width img.height)).height =
      pyScaled wi.toNat img.width img.height := by
  have hred : resize_image req =
      respondPng (resample img wi.toNat (pyScaled wi.toNat img.width img.height))
        "Image resized successfully!" "Failed to encode processed image" := by
    simp only [resize_image, hs, hdec, hwidth, hheight]
    rw [checkDim_pos ws wi _ _ hpw hwpos]
    simp only [checkDim]
  rw [hred]
  refine ⟨respondPng_status _ _ _, respImage_respondPng _ ?_ _ _, rfl, rfl⟩
  exact resample_wf img _ _ hwf (by omega) (by omega) (by omega) (by omega)

/-- C2 witness: `width=200` on the 400×300 source gives exactly the
spec's predicted 150 (the double computation is exact there). -/
theorem resize_width_only_float_witness :
    pyScaled 200 400 300 = 150 ∧
    (resize_image req200).status = 200 ∧
    respImage (resize_image req200) = some (resample img400 200 150) ∧
    (resample img400 200 150).width = 200 ∧
    (resample img400 200 150).height = 150 := by
  have h := resize_width_only_float req200 (b2a (pngBytes img400))
    [50, 48, 48] img400 200 rfl (decode_pngBytes img400 img400_wf)
    img400_wf rfl (by decide) (by decide) (by decide) rfl (by decide)
    (by decide)
  exact ⟨by decide, h.1, h.2.1, h.2.2.1, h.2.2.2⟩

/-! ### Claim C4 (amended): non-empty malformed dimensions yield 400 -/

/-- C4 counterexample.  The claim includes the empty string among the
values that must yield 400, but `app.py` tests `if width_str:`, so an
empty `width` field is falsy and silently treated as absent: the request
succeeds with 200 and the no-op message. -/
theorem resize_empty_width_counterexample :
    (resize_image reqEmptyW).status = 200 ∧
    (resize_image reqEmptyW).message =
      some "No dimensions provided, image returned as is." := by
  have hdec : decode_image strA = some imgA := decode_pngBytes imgA imgA_wf
  have hred : resize_image reqEmptyW =
      respondPng imgA "No dimensions provided, image returned as is."
        "Failed to encode image" := by
    simp only [resize_image, reqEmptyW, hdec, checkDim]
  rw [hred]
  exact ⟨respondPng_status _ _ _, respondPng_message _ _ _⟩

/-- C4 (amended).  For every `/api/resize-image` request that supplies a
*non-empty* `width` or `height` string that does not parse as a strictly
positive integer (zero, negative, or non-numeric), the handler returns
status 400 — never a silently ignored or clamped value.  (An empty
string, being falsy, is treated as an absent field instead.) -/
theorem resize_bad_dim_400 (req : FormReq) (d : List Nat) (hne : d ≠ [])
    (hbad : pyInt d = none ∨ ∃ v, pyInt d = some v ∧ v ≤ 0)
    (hfield : req.width = some d ∨ req.height = some d) :
    (resize_image req).status = 400 := by
  cases hi : req.image_data with
  | none => simp only [resize_image, hi]; rfl
  | some s =>
    cases hd : decode_image s with
    | none => simp only [resize_image, hi, hd]; rfl
    | some img =>
      rcases hfield with hw | hh
      · obtain ⟨msg, hmsg⟩ := checkDim_bad d "Width must be a positive integer"
          "Invalid width parameter" hne hbad
        simp only [resize_image, hi, hd, hw, hmsg]
        rfl
      · obtain ⟨msg, hmsg⟩ := checkDim_bad d "Height must be a positive integer"
          "Invalid height parameter" hne hbad
        cases hcw : checkDim req.width "Width must be a positive integer"
            "Invalid width parameter" with
        | error r =>
          simp only [resize_image, hi, hd, hcw]
          exact checkDim_error_status _ _ _ _ hcw
        | ok width =>
          simp only [resize_image, hi, hd, hcw, hh, hmsg]
          rfl

/-- C4 witness: `width="0"` on a valid image is answered with 400. -/
theorem resize_bad_dim_400_witness : (resize_image reqZeroW).status = 400 :=
  resize_bad_dim_400 reqZeroW [48] (by decide)
    (Or.inr ⟨0, by decide, by decide⟩) (Or.inl rfl)

/-! ### Claim C1 (amended): the round-trip holds after stripping the marker -/

/-- C1 counterexample.  `encode_image` prepends
`"data:image/png;base64,"`, and `decode_image` does not strip it: the
marker's 19 Base64-alphabet characters shift the quad structure (19 ≡ 3
mod 4), so CPython's `b64decode` raises and `decode_image` returns
`None`.  Decoding an encoded image therefore *fails* rather than
returning an image of identical dimensions. -/
theorem encode_then_decode_fails_counterexample :
    decode_image strA = some imgA ∧
    Option.bind (encode_image imgA) decode_image = none := by decide

/-- C1 (amended).  For every well-formed image (in particular every image
`decode_image` produces), encoding with `encode_image` and then decoding
the payload *after stripping the 22-character data-URI marker* (as the
service's client does) succeeds and returns an image with identical
dimensions and identical pixels. -/
theorem decode_encode_stripped_roundtrip (img : Image) (enc : List Nat)
    (hwf : img.wf) (henc : encode_image img = some enc) :
    decode_image (enc.drop 22) = some img := by
  obtain rfl : uriMarker ++ b2a (pngBytes img) = enc := Option.some.inj henc
  rw [show (22 : ℕ) = uriMarker.length from rfl, List.drop_left]
  exact decode_pngBytes img hwf

/-- C1 witness: the stripped round-trip at the 1×1 fixture. -/
theorem decode_encode_stripped_roundtrip_witness :
    decode_image ((uriMarker ++ b2a (pngBytes imgA)).drop 22) = some imgA :=
  decode_encode_stripped_roundtrip imgA _ imgA_wf rfl

/-! ### Claim C7: the decode contract -/

/-- C7.  `decode_image` fails exactly when the input is not valid Base64
(under CPython's lenient decoder) or the decoded bytes are not a
parseable image; a successful decode always yields a well-formed RGBA
image; and a failed decode is surfaced by `/api/remove-background` as the
400 `"Invalid image data"` response. -/
theorem decode_image_contract (s : List Nat) :
    (decode_image s = none ↔
      b64decode s = none ∨
      ∃ bytes, b64decode s = some bytes ∧ pilOpen bytes = none) ∧
    (∀ img, decode_image s = some img → img.wf) ∧
    (∀ removeFn req, req.image_data = some s → decode_image s = none →
      remove_background removeFn req = jsonError "Invalid image data" 400) := by
  refine ⟨?_, fun img h => decode_image_wf s img h, ?_⟩
  · unfold decode_image
    cases hb : b64decode s with
    | none => simp
    | some bytes =>
      cases ho : pilOpen bytes with
      | none => simp [ho]
      | some img => simp [ho]
  · intro removeFn req hreq hdec
    simp only [remove_background, hreq, hdec]

/-- C7 witness: a successful decode is well-formed; an undecodable
payload is answered by the handler with the 400 response. -/
theorem decode_image_contract_witness :
    imgA.wf ∧
    remove_background rfOk reqBadImg = jsonError "Invalid image data" 400 :=
  ⟨(decode_image_contract strA).2.1 imgA (decode_pngBytes imgA imgA_wf),
   (decode_image_contract sBad).2.2 rfOk reqBadImg rfl (by decide)⟩

/-! ### Claim C6: shape of error responses -/

theorem goodResp_jsonError400 (msg : String) : goodResp (jsonError msg 400) :=
  ⟨fun _ => rfl, fun h => by simp [jsonError] at h⟩

theorem goodResp_jsonErrorDetails (msg d : String) :
    goodResp (jsonErrorDetails msg d) := ⟨fun _ => rfl, fun _ => rfl⟩

theorem goodResp_respondPng (img : Image) (m1 m2 : String) :
    goodResp (respondPng img m1 m2) :=
  ⟨fun h => absurd rfl h, fun h => by
    simp [respondPng, encode_image, jsonOk] at h⟩

theorem checkDim_error_goodResp (field : Option (List Nat)) (p1 p2 : String)
    (r : Response) (h : checkDim field p1 p2 = .error r) : goodResp r := by
  unfold checkDim at h
  split at h
  · cases h
  · cases h
  · split at h
    · injection h with h2
      subst h2
      exact goodResp_jsonError400 _
    · split at h
      · injection h with h2
        subst h2
        exact goodResp_jsonError400 _
      · cases h

theorem goodResp_remove (removeFn : Image → Except String Image)
    (req : FormReq) : goodResp (remove_background removeFn req) := by
  cases hi : req.image_data with
  | none => simp only [remove_background, hi]; exact goodResp_jsonError400 _
  | some s =>
    cases hd : decode_image s with
    | none => simp only [remove_background, hi, hd]; exact goodResp_jsonError400 _
    | some img =>
      cases hr : removeFn img with
      | error e =>
        simp only [remove_background, hi, hd, hr]
        exact goodResp_jsonErrorDetails _ _
      | ok out =>
        simp only [remove_background, hi, hd, hr]
        exact goodResp_respondPng _ _ _

theorem goodResp_resize (req : FormReq) : goodResp (resize_image req) := by
  cases hi : req.image_data with
  | none => simp only [resize_image, hi]; exact goodResp_jsonError400 _
  | some s =>
    cases hd : decode_image s with
    | none => simp only [resize_image, hi, hd]; exact goodResp_jsonError400 _
    | some img =>
      cases hcw : checkDim req.width "Width must be a positive integer"
          "Invalid width parameter" with
      | error r =>
        simp only [resize_image, hi, hd, hcw]
        exact checkDim_error_goodResp _ _ _ _ hcw
      | ok width =>
        cases hch : checkDim req.height "Height must be a positive integer"
            "Invalid height parameter" with
        | error r =>
          simp only [resize_image, hi, hd, hcw, hch]
          exact checkDim_error_goodResp _ _ _ _ hch
        | ok height =>
          cases width with
          | none =>
            cases height with
            | none =>
              simp only [resize_image, hi, hd, hcw, hch]
              exact goodResp_respondPng _ _ _
            | some h2 =>
              simp only [resize_image, hi, hd, hcw, hch]
              exact goodResp_respondPng _ _ _
          | some w2 =>
            cases height with
            | none =>
              simp only [resize_image, hi, hd, hcw, hch]
              exact goodResp_respondPng _ _ _
            | some h2 =>
              simp only [resize_image, hi, hd, hcw, hch]
              exact goodResp_respondPng _ _ _

theorem goodResp_editApply (color bgfile : Option (List Nat)) (img : Image) :
    goodResp (editApply color bgfile img) := by
  cases bgfile with
  | some fb =>
    cases ho : pilOpen fb with
    | none =>
      simp only [editApply, ho]
      exact goodResp_jsonErrorDetails _ _
    | some bg =>
      simp only [editApply, ho]
      exact goodResp_respondPng _ _ _
  | none =>
    cases color with
    | none => simp only [editApply]; exact goodResp_respondPng _ _ _
    | some l =>
      cases l with
      | nil => simp only [editApply]; exact goodResp_respondPng _ _ _
      | cons c cs =>
        cases h0 : pyIntHex ((((c :: cs).dropWhile (· = 35)).drop 0).take 2) with
        | none =>
          simp only [editApply, h0]
          exact goodResp_jsonError400 _
        | some r =>
          cases h2 : pyIntHex ((((c :: cs).dropWhile (· = 35)).drop 2).take 2) with
          | none =>
            simp only [editApply, h0, h2]
            exact goodResp_jsonError400 _
          | some g =>
            cases h4 : pyIntHex ((((c :: cs).dropWhile (· = 35)).drop 4).take 2) with
            | none =>
              simp only [editApply, h0, h2, h4]
              exact goodResp_jsonError400 _
            | some b =>
              simp only [editApply, h0, h2, h4]
              exact goodResp_respondPng _ _ _

theorem goodResp_edit (req : FormReq) : goodResp (edit_background req) := by
  cases hi : req.image_data with
  | none => simp only [edit_background, hi]; exact goodResp_jsonError400 _
  | some s =>
    cases hd : decode_image s with
    | none => simp only [edit_background, hi, hd]; exact goodResp_jsonError400 _
    | some img =>
      by_cases hguard : truthy req.color = false ∧ req.background_image = none
      · simp only [edit_background, hi, hd, if_pos hguard]
        exact goodResp_jsonError400 _
      · simp only [edit_background, hi, hd, if_neg hguard]
        exact goodResp_editApply _ _ _

/-- C6.  Every error response from any of the three endpoints is a JSON
object with an `error` member, and every reachable 500-tier response (a
caught exception) additionally carries a `details` member holding the
exception's message — shown here by the final conjunct for the
background-removal model's error.  (The `encode_image is None` branches
would answer 500 without `details`, but they are unreachable: saving an
in-memory RGBA image to an in-memory PNG buffer does not fail.) -/
theorem error_responses_shape (removeFn : Image → Except String Image)
    (req : FormReq) :
    goodResp (remove_background removeFn req) ∧
    goodResp (edit_background req) ∧
    goodResp (resize_image req) ∧
    (∀ s img e, req.image_data = some s → decode_image s = some img →
      removeFn img = .error e →
      (remove_background removeFn req).details = some e) := by
  refine ⟨goodResp_remove removeFn req, goodResp_edit req,
    goodResp_resize req, ?_⟩
  intro s img e hs hdec hrem
  simp only [remove_background, hs, hdec, hrem]
  rfl

/-- C6 witness: a failing inference yields a 500 whose `details` is the
exception message, and a request with no image yields a response with an
`error` member. -/
theorem error_responses_shape_witness :
    (remove_background rfErr reqNoDims).details = some "inference failed" ∧
    (resize_image reqMissing).error.isSome = true :=
  ⟨(error_responses_shape rfErr reqNoDims).2.2.2 strA imgA "inference failed"
      rfl (decode_pngBytes imgA imgA_wf) rfl,
   (error_responses_shape rfOk reqMissing).2.2.1.1 (by decide)⟩

/-! ### Claim C5: solid-colour compositing at the alpha extremes -/

/-- C5.  For every `/api/edit-background` request with a valid image,
colour `"#FF0000"` and no uploaded background: if the foreground is
fully opaque the response image equals the foreground (background fully
occluded); if the foreground is fully transparent the response image is
solid red `(255,0,0,255)` — standard alpha-over compositing through the
foreground's alpha channel. -/
theorem edit_solid_color_composites (req : FormReq) (s : List Nat)
    (fg : Image) (hs : req.image_data = some s)
    (hdec : decode_image s = some fg) (hwf : fg.wf)
    (hcol : req.color = some colorRed) (hbg : req.background_image = none) :
    ((∀ p ∈ fg.pixels, p.a = 255) →
      (edit_background req).status = 200 ∧
      respImage (edit_background req) = some fg) ∧
    ((∀ p ∈ fg.pixels, p.a = 0) →
      (edit_background req).status = 200 ∧
      respImage (edit_background req) =
        some (solidImage fg.width fg.height ⟨255, 0, 0, 255⟩)) := by
  have hred : edit_background req =
      respondPng
        (alphaComposite (solidImage fg.width fg.height ⟨255, 0, 0, 255⟩) fg)
        "Background edited successfully!"
        "Failed to encode processed image" := by
    simp only [edit_background, hs, hdec, hcol, hbg]
    rw [if_neg (by simp [colorRed, truthy])]
    rfl
  constructor
  · intro ha
    rw [hred, alphaComposite_opaque_solid fg _ hwf ha]
    exact ⟨respondPng_status _ _ _, respImage_respondPng fg hwf _ _⟩
  · intro ha
    rw [hred, alphaComposite_transparent_solid fg _ hwf (by decide) rfl ha]
    refine ⟨respondPng_status _ _ _, respImage_respondPng _ ?_ _ _⟩
    obtain ⟨h1, h2, h3, h4, -, -⟩ := hwf
    exact solidImage_wf _ _ _ h1 h2 h3 h4 (by decide)

/-- C5 witness: the opaque and transparent 1×1 foregrounds under
`color="#FF0000"`. -/
theorem edit_solid_color_composites_witness :
    ((edit_background reqEditA).status = 200 ∧
      respImage (edit_background reqEditA) = some imgA) ∧
    ((edit_background reqEditT).status = 200 ∧
      respImage (edit_background reqEditT) =
        some (solidImage 1 1 ⟨255, 0, 0, 255⟩)) := by
  constructor
  · exact (edit_solid_color_composites reqEditA strA imgA rfl
      (decode_pngBytes imgA imgA_wf) imgA_wf rfl rfl).1 (by decide)
  · exact (edit_solid_color_composites reqEditT strT imgT rfl
      (decode_pngBytes imgT imgT_wf) imgT_wf rfl rfl).2 (by decide)

/-! ### Claim C8 (amended): hex-colour parsing -/

/-- C8 counterexample.  `"#FF0000AA"` is not a valid 6-hex-digit colour
string (eight digits remain after stripping `#`), yet the handler does
not answer 400: the slices `[0:2]`, `[2:4]`, `[4:6]` all parse, the
extra characters are ignored, and the request succeeds with 200. -/
theorem edit_color_not_six_hex_counterexample :
    specSixHexColor colorLong = false ∧
    (edit_background reqEditLong).status = 200 := by decide

/-- C8 (amended).  For every `/api/edit-background` request with a valid
image, no uploaded background, and a non-empty colour string: if any of
the three 2-character slices taken at offsets 0, 2, 4 of the
`#`-stripped string fails to parse as base-16 (e.g. `"#ZZZZZZ"`), the
handler answers 400 `"Invalid color hex code"` and does not crash; if
all three parse as bytes (in particular for every valid 6-hex-digit
colour), the background is the solid colour `(r, g, b, 255)` — alpha
implied 255.  Characters beyond the sixth are ignored, so some strings
that are not 6-hex-digit colours also succeed. -/
theorem edit_color_hex_parse (req : FormReq) (s : List Nat) (fg : Image)
    (c : Nat) (cs : List Nat) (hs : req.image_data = some s)
    (hdec : decode_image s = some fg) (hwf : fg.wf)
    (hcol : req.color = some (c :: cs)) (hbg : req.background_image = none) :
    ((pyIntHex ((((c :: cs).dropWhile (· = 35)).drop 0).take 2) = none ∨
      pyIntHex ((((c :: cs).dropWhile (· = 35)).drop 2).take 2) = none ∨
      pyIntHex ((((c :: cs).dropWhile (· = 35)).drop 4).take 2) = none) →
      (edit_background req).status = 400 ∧
      (edit_background req).error = some "Invalid color hex code") ∧
    (∀ r g b : Int,
      pyIntHex ((((c :: cs).dropWhile (· = 35)).drop 0).take 2) = some r →
      pyIntHex ((((c :: cs).dropWhile (· = 35)).drop 2).take 2) = some g →
      pyIntHex ((((c :: cs).dropWhile (· = 35)).drop 4).take 2) = some b →
      0 ≤ r → r < 256 → 0 ≤ g → g < 256 → 0 ≤ b → b < 256 →
      (edit_background req).status = 200 ∧
      respImage (edit_background req) =
        some (alphaComposite
          (solidImage fg.width fg.height ⟨r.toNat, g.toNat, b.toNat, 255⟩)
          fg)) := by
  have hbase : edit_background req = editApply (some (c :: cs)) none fg := by
    simp only [edit_background, hs, hdec, hcol, hbg]
    rw [if_neg (by simp [truthy])]
  constructor
  · intro hfail
    cases h0 : pyIntHex ((((c :: cs).dropWhile (· = 35)).drop 0).take 2) with
    | none =>
      rw [hbase]
      simp only [editApply, h0]
      exact ⟨rfl, rfl⟩
    | some r =>
      cases h2 : pyIntHex ((((c :: cs).dropWhile (· = 35)).drop 2).take 2) with
      | none =>
        rw [hbase]
        simp only [editApply, h0, h2]
        exact ⟨rfl, rfl⟩
      | some g =>
        cases h4 : pyIntHex ((((c :: cs).dropWhile (· = 35)).drop 4).take 2) with
        | none =>
          rw [hbase]
          simp only [editApply, h0, h2, h4]
          exact ⟨rfl, rfl⟩
        | some b => rcases hfail with h | h | h <;> simp_all
  · intro r g b h0 h2 h4 hr0 hr1 hg0 hg1 hb0 hb1
    have er : r % 256 = r := Int.emod_eq_of_lt hr0 hr1
    have eg : g % 256 = g := Int.emod_eq_of_lt hg0 hg1
    have eb : b % 256 = b := Int.emod_eq_of_lt hb0 hb1
    rw [hbase]
    simp only [editApply, h0, h2, h4, er, eg, eb]
    refine ⟨respondPng_status _ _ _, respImage_respondPng _ ?_ _ _⟩
    refine alphaComposite_wf _ _ ?_ hwf rfl rfl
    obtain ⟨hW, hH, hW32, hH32, -, -⟩ := hwf
    exact solidImage_wf _ _ _ hW hH hW32 hH32
      ⟨by dsimp only; omega, by dsimp only; omega, by dsimp only; omega,
       by norm_num⟩

/-- C8 witness: `"#ZZZZZZ"` is rejected with 400; `"#102030"` composites
over solid `(16, 32, 48, 255)`. -/
theorem edit_color_hex_parse_witness :
    ((edit_background reqEditZ).status = 400 ∧
      (edit_background reqEditZ).error = some "Invalid color hex code") ∧
    ((edit_background reqEditHex).status = 200 ∧
      respImage (edit_background reqEditHex) =
        some (alphaComposite (solidImage 1 1 ⟨16, 32, 48, 255⟩) imgA)) := by
  constructor
  · exact (edit_color_hex_parse reqEditZ strA imgA 35 [90, 90, 90, 90, 90, 90]
      rfl (decode_pngBytes imgA imgA_wf) imgA_wf rfl rfl).1
      (Or.inl (by decide))
  · exact (edit_color_hex_parse reqEditHex strA imgA 35 [49, 48, 50, 48, 51, 48]
      rfl (decode_pngBytes imgA imgA_wf) imgA_wf rfl rfl).2 16 32 48
      (by decide) (by decide) (by decide) (by decide) (by decide)
      (by decide) (by decide) (by decide) (by decide)

/-! ### Claim C10: an uploaded background takes precedence over `color` -/

/-- C10.  For every `/api/edit-background` request that supplies both a
`color` field (of any value, even invalid) and a parseable
`background_image` file, the handler does not return an error: the
uploaded image is resized to the foreground's dimensions and used as the
background, and the colour string is never inspected. -/
theorem edit_bgfile_precedence (req : FormReq) (s fb : List Nat)
    (fg bg : Image) (hs : req.image_data = some s)
    (hdec : decode_image s = some fg) (hwf : fg.wf)
    (hfile : req.background_image = some fb)
    (hopen : pilOpen fb = some bg) :
    (edit_background req).status = 200 ∧
    respImage (edit_background req) =
      some (alphaComposite (resample bg fg.width fg.height) fg) := by
  have hred : edit_background req =
      respondPng (alphaComposite (resample bg fg.width fg.height) fg)
        "Background edited successfully!"
        "Failed to encode processed image" := by
    simp only [edit_background, hs, hdec, hfile]
    rw [if_neg (by simp)]
    simp only [editApply, hopen]
  rw [hred]
  refine ⟨respondPng_status _ _ _, respImage_respondPng _ ?_ _ _⟩
  refine alphaComposite_wf _ _ ?_ hwf rfl rfl
  obtain ⟨hW, hH, hW32, hH32, -, -⟩ := hwf
  exact resample_wf bg _ _ (pilOpen_wf fb bg hopen) hW hH hW32 hH32

/-- C10 witness: invalid colour `"Z"` plus an uploaded 1×1 green
background on the opaque 1×1 foreground. -/
theorem edit_bgfile_precedence_witness :
    (edit_background reqEditBg).status = 200 ∧
    respImage (edit_background reqEditBg) =
      some (alphaComposite (resample imgB 1 1) imgA) :=
  edit_bgfile_precedence reqEditBg strA (pngBytes imgB) imgA imgB rfl
    (decode_pngBytes imgA imgA_wf) imgA_wf rfl
    (pilOpen_pngBytes imgB imgB_wf)

end BackApp
